import Mathlib

/-!
Verification of the Factor-Investing-Analyzer statistics core.

Shallow embedding of the repository's pandas-based quantitative core:

* `src/src/analysis.py`  (`PerformanceAnalyzer`)
* `src/src/geography.py` (`GeographyAnalyzer`)
* `src/src/factors.py`   (`FactorDataLoader`)

Tables are modelled column-major: a price/return table is a list of columns,
each column a list of cell values.  Claims whose arithmetic is exact
(cumulative products, drawdowns, allocation percentages, the shape of the
returns derivation) are embedded over `ℚ`, so they are fully executable.
Claims that involve `sqrt`, `exp` or real exponentiation (volatility, Sharpe,
correlation, the diversification ratio, the synthetic price path) are
embedded over `ℝ`; exact real arithmetic is the usual idealization of the
source's floating point, and the one float behaviour that the claims
genuinely depend on (division producing `inf`/`NaN` at a zero denominator
instead of raising) is modelled explicitly by the `PyVal` type.  Missing
values (pandas `NaN` cells) are modelled as `Option` cells.
-/

/-! Section: Exact (ℚ) statistics: `PerformanceAnalyzer` and `GeographyAnalyzer` -/

/-- Running product of a list, seeded with accumulator `a`:
`cumprodAux a [x, y, z] = [a*x, a*x*y, a*x*y*z]`.  Helper for pandas
`cumprod` along a column. -/
def cumprodAux (a : ℚ) : List ℚ → List ℚ
  | [] => []
  | x :: xs => (a * x) :: cumprodAux (a * x) xs

/-- pandas `Series.cumprod` on one column. -/
def cumprod (l : List ℚ) : List ℚ := cumprodAux 1 l

/-- Model of `PerformanceAnalyzer.calculate_cumulative_returns`, one column:
`(1 + self.returns).cumprod() - 1` (analysis.py, lines 40-48). -/
def calculate_cumulative_returns (col : List ℚ) : List ℚ :=
  (cumprod (col.map (fun r => 1 + r))).map (fun x => x - 1)

/-- Running maximum continuing from accumulated maximum `m`.  Helper for
pandas `expanding().max()`. -/
def expMaxAux (m : ℚ) : List ℚ → List ℚ
  | [] => []
  | x :: xs => max m x :: expMaxAux (max m x) xs

/-- pandas `Series.expanding().max()`: entry `i` is the maximum of the first
`i+1` entries. -/
def expandingMax : List ℚ → List ℚ
  | [] => []
  | x :: xs => x :: expMaxAux x xs

/-- Model of `PerformanceAnalyzer.calculate_drawdowns`, one column:
`(price - running_max) / running_max` (analysis.py, lines 50-68). -/
def drawdown_col (prices : List ℚ) : List ℚ :=
  List.zipWith (fun p m => (p - m) / m) prices (expandingMax prices)

/-- Model of `PerformanceAnalyzer.calculate_drawdowns` over the whole price table
(column-major). -/
def calculate_drawdowns (cols : List (List ℚ)) : List (List ℚ) :=
  cols.map drawdown_col

/-- Model of `PerformanceAnalyzer.calculate_max_drawdown`: `drawdowns.min()`
per column (analysis.py, lines 70-78). -/
def calculate_max_drawdown (cols : List (List ℚ)) : List (Option ℚ) :=
  (calculate_drawdowns cols).map (fun d => d.min?)

/-- Model of `GeographyAnalyzer.calculate_regional_contribution`
(geography.py, lines 46-58): `final_values = prices.iloc[-1]`,
`(final_values / final_values.sum()) * 100`. -/
def calculate_regional_contribution (cols : List (List ℚ)) : List ℚ :=
  (cols.map (fun c => c.getLastD 0)).map
    (fun v => v / (cols.map (fun c => c.getLastD 0)).sum * 100)

/-! Section: Real-valued statistics (`PerformanceAnalyzer`, `GeographyAnalyzer`)

These operations involve `sqrt` / real exponentiation, so they are embedded
over `ℝ`.  `PyVal` models an IEEE float result where the distinction between
a finite value, `±inf` and `NaN` matters: numpy float division by zero does
not raise, it produces `±inf` (nonzero numerator) or `NaN` (zero numerator),
with warnings suppressed (`warnings.filterwarnings('ignore')`). -/

/-- Result of a numpy floating-point computation: a finite value, an
infinity, or not-a-number. -/
inductive PyVal : Type where
  | nan : PyVal
  | pinf : PyVal
  | ninf : PyVal
  | fin : ℝ → PyVal

/-- numpy float division of two finite values: `±inf` or `NaN` at a zero
denominator instead of an exception. -/
noncomputable def floatDiv (a b : ℝ) : PyVal :=
  if b = 0 then (if a = 0 then PyVal.nan else if 0 < a then PyVal.pinf else PyVal.ninf)
  else PyVal.fin (a / b)

/-- pandas `Series.mean()` of one column. -/
noncomputable def mean (l : List ℝ) : ℝ := l.sum / l.length

/-- pandas `Series.std()` (sample variance, `ddof=1`):
`Σ (x_i - mean)^2 / (n - 1)`. -/
noncomputable def sample_var (l : List ℝ) : ℝ :=
  (∑ i in Finset.range l.length, (l.getD i 0 - mean l) ^ 2) / ((l.length : ℝ) - 1)

/-- pandas `Series.std()`: square root of the sample variance. -/
noncomputable def sample_std (l : List ℝ) : ℝ := Real.sqrt (sample_var l)

/-- Model of `(1 + self.returns).prod() - 1`, the total return over the window
(analysis.py, line 100). -/
noncomputable def total_return (l : List ℝ) : ℝ :=
  (l.map (fun r => 1 + r)).prod - 1

/-- Model of `PerformanceAnalyzer.calculate_annualized_return` (analysis.py, lines
89-104): `years = len(returns)/trading_days`,
`(1 + total_return) ** (1/years) - 1` (real exponentiation). -/
noncomputable def calculate_annualized_return (td : ℕ) (l : List ℝ) : ℝ :=
  (1 + total_return l) ^ ((1 : ℝ) / ((l.length : ℝ) / (td : ℝ))) - 1

/-- Model of `PerformanceAnalyzer.calculate_annualized_volatility` (analysis.py,
lines 106-116): `returns.std() * np.sqrt(trading_days)`. -/
noncomputable def calculate_annualized_volatility (td : ℕ) (l : List ℝ) : ℝ :=
  sample_std l * Real.sqrt (td : ℝ)

/-- Model of `PerformanceAnalyzer.calculate_sharpe_ratio` (analysis.py, lines
118-138): `(ann_return - risk_free_rate) / ann_vol`, a pandas float
division, hence `PyVal`-valued. -/
noncomputable def calculate_sharpe (rfr : ℝ) (td : ℕ) (l : List ℝ) : PyVal :=
  floatDiv (calculate_annualized_return td l - rfr) (calculate_annualized_volatility td l)

/-- Sample covariance of two equal-length columns (the pairwise kernel
behind pandas `DataFrame.corr()`). -/
noncomputable def sample_cov (x y : List ℝ) : ℝ :=
  (∑ i in Finset.range x.length, (x.getD i 0 - mean x) * (y.getD i 0 - mean y)) /
    ((x.length : ℝ) - 1)

/-- One entry of pandas `DataFrame.corr()`: Pearson correlation
`cov(x, y) / (std(x) * std(y))` as a float division. -/
noncomputable def corr_entry (x y : List ℝ) : PyVal :=
  floatDiv (sample_cov x y) (sample_std x * sample_std y)

/-- Model of `PerformanceAnalyzer.calculate_correlation_matrix` (analysis.py, lines
80-87): `self.returns.corr()`, the full pairwise matrix. -/
noncomputable def calculate_correlation_matrix (cols : List (List ℝ)) : List (List PyVal) :=
  cols.map (fun x => cols.map (fun y => corr_entry x y))

/-- pandas `Series.rolling(window).agg(f)`: entry `i` is `NaN` for the first
`window - 1` positions, otherwise `f` of the trailing window ending at `i`. -/
noncomputable def rolling_apply (window : ℕ) (f : List ℝ → ℝ) (col : List ℝ) : List PyVal :=
  (List.range col.length).map (fun i =>
    if i + 1 < window then PyVal.nan
    else PyVal.fin (f ((col.take (i + 1)).drop (i + 1 - window))))

/-- Scalar multiplication of a float column (`NaN` propagates; the scale
factors used by the source, `252` and `sqrt 252`, are positive, so
infinities keep their sign). -/
noncomputable def pyScale (c : ℝ) : PyVal → PyVal
  | PyVal.nan => PyVal.nan
  | PyVal.pinf => PyVal.pinf
  | PyVal.ninf => PyVal.ninf
  | PyVal.fin x => PyVal.fin (x * c)

/-- Element-wise float division of two rolling columns.  In
`get_rolling_metrics` the operands are only ever finite values or the
leading-window `NaN`s, and `NaN` propagates through division; infinite
operands cannot occur there and are collapsed to `NaN`. -/
noncomputable def pyValDiv : PyVal → PyVal → PyVal
  | PyVal.fin a, PyVal.fin b => floatDiv a b
  | _, _ => PyVal.nan

/-- Model of `PerformanceAnalyzer.get_rolling_metrics` (analysis.py, lines 192-216):
rolling volatility / return / Sharpe over a trailing window, raising
`ValueError("Unknown metric: ...")` for any other metric name. -/
noncomputable def get_rolling_metrics (cols : List (List ℝ)) (window : ℕ)
    (metric : String) : Except String (List (List PyVal)) :=
  if metric = "volatility" then
    Except.ok (cols.map (fun c =>
      (rolling_apply window sample_std c).map (pyScale (Real.sqrt 252))))
  else if metric = "return" then
    Except.ok (cols.map (fun c =>
      (rolling_apply window mean c).map (pyScale 252)))
  else if metric = "sharpe" then
    Except.ok (cols.map (fun c =>
      List.zipWith pyValDiv
        ((rolling_apply window mean c).map (pyScale 252))
        ((rolling_apply window sample_std c).map (pyScale (Real.sqrt 252)))))
  else Except.error ("Unknown metric: " ++ metric)

/-- Equal-weighted portfolio return series,
`(self.returns * weights).sum(axis=1)` with `weights = 1/k` each
(geography.py, lines 188-195); `n` is the row count of the table. -/
noncomputable def portfolio_returns (cols : List (List ℝ)) (n : ℕ) : List ℝ :=
  (List.range n).map (fun i =>
    (cols.map (fun c => (1 / (cols.length : ℝ)) * c.getD i 0)).sum)

/-- Model of `GeographyAnalyzer.calculate_diversification_ratio` (geography.py,
lines 180-204): equal-weight average of the individual (daily, unannualized)
standard deviations over the standard deviation of the equal-weighted
portfolio return series. -/
noncomputable def calculate_diversification (cols : List (List ℝ)) (n : ℕ) : ℝ :=
  (cols.map (fun c => (1 / (cols.length : ℝ)) * sample_std c)).sum /
    sample_std (portfolio_returns cols n)

/-- Modelled from the spec: the diversification ratio as §4.3 words it,
"(equal-weight average of individual annualized vol) / (annualized vol of
the equal-weighted portfolio return series)", with annualized vol
`std * sqrt(252)` per §4.2. -/
noncomputable def diversification_spec (cols : List (List ℝ)) (n : ℕ) : ℝ :=
  (cols.map (fun c => (1 / (cols.length : ℝ)) * (sample_std c * Real.sqrt 252))).sum /
    (sample_std (portfolio_returns cols n) * Real.sqrt 252)

/-! Section: The data loader (`FactorDataLoader`, factors.py)

A pandas `DataFrame` is modelled as a `Frame`: a list of column names plus
row-major cells; a `NaN` cell is `none`.  Dates are day numbers counted from
an epoch Monday, so `d % 7 ∈ {5, 6}` is a weekend. -/

/-- A pandas `DataFrame`: column names and row-major cells (`none` = `NaN`). -/
structure Frame (α : Type) : Type where
  cols : List String
  rows : List (List (Option α))

/-- One cell of pandas `pct_change`: `(cur - prev) / prev`, `NaN` when either
operand is missing.  A `0/0` cell is float `NaN` (dropped later); a `c/0`
cell with `c ≠ 0` is `±inf`, which is *not* `NaN` — it survives `dropna`,
which is all that matters for the shape claims, so it is kept as a (junk)
finite value here. -/
def pctCell (prev cur : Option ℚ) : Option ℚ :=
  match prev, cur with
  | some p, some c => if p = 0 ∧ c = 0 then none else some ((c - p) / p)
  | _, _ => none

/-- One row of pandas `pct_change`: cell-wise fractional change. -/
def pct_row (prev cur : List (Option ℚ)) : List (Option ℚ) :=
  List.zipWith pctCell prev cur

/-- pandas `DataFrame.pct_change()` (no forward-fill of interior `NaN`s;
the C1 counterexample below places the missing value in the first row, where
`fill_method` padding cannot apply, so it is insensitive to the pandas
`fill_method` default): the first row is all-`NaN`, then row-over-row
fractional change. -/
def pct_change (rows : List (List (Option ℚ))) : List (List (Option ℚ)) :=
  match rows with
  | [] => []
  | r0 :: rest => (r0.map (fun _ => none)) :: List.zipWith pct_row (r0 :: rest) rest

/-- pandas `DataFrame.dropna()` (default `how='any'`): keep only the rows
in which every cell is present. -/
def dropna_any (rows : List (List (Option ℚ))) : List (List (Option ℚ)) :=
  rows.filter (fun r => r.all Option.isSome)

/-- Model of `FactorDataLoader.get_returns` (factors.py, lines 213-223):
`prices.pct_change().dropna()`. -/
def get_returns (P : Frame ℚ) : Frame ℚ :=
  { cols := P.cols, rows := dropna_any (pct_change P.rows) }

/-- A price table with a missing cell in its first row — the spec's
PriceTable invariant (§3) explicitly allows missing individual values from
non-overlapping fetch windows.  Input for the C1 counterexample. -/
def price_frame_gap : Frame ℚ :=
  { cols := ["A"], rows := [[none], [some 100], [some 101]] }

/-- Is day number `d` a business day (epoch is a Monday)? -/
def isBusinessDay (d : ℕ) : Bool := d % 7 < 5

/-- pandas `bdate_range(start, end)`: the business days in `[s, e]`. -/
def bdateRange (s e : ℕ) : List ℕ :=
  ((List.range (e + 1 - s)).map (fun i => s + i)).filter isBusinessDay

/-- CPython's salted string hash.  Since Python 3.3, `hash` of a `str` is
keyed by a per-process random value (`PYTHONHASHSEED`); `salt` is that
per-process key, and the hash of a given name genuinely depends on it.  The
concrete mixing function is a stand-in with that documented property. -/
def pyHash (salt : ℕ) (name : String) : ℕ :=
  name.data.foldl (fun h c => (h * 1000003 + c.toNat) % 2 ^ 61) (salt % 2 ^ 61 + 17)

/-- Model of `np.random.seed(hash(name) % (2**32))` (factors.py, line 198): the seed
value actually handed to numpy. -/
def mockSeed (salt : ℕ) (name : String) : ℕ := pyHash salt name % 2 ^ 32

/-- One step of a deterministic pseudo-random generator, standing in for
numpy's (deterministic) Mersenne Twister state transition. -/
def lcg (s : ℕ) : ℕ := (s * 6364136223846793005 + 1442695040888963407) % 2 ^ 64

/-- The `i+1`-fold iterate of `lcg`. -/
def lcgIter (s : ℕ) : ℕ → ℕ
  | 0 => lcg s
  | n + 1 => lcg (lcgIter s n)

/-- Stand-in for the `i`-th standard-normal draw of a numpy generator seeded
with `seed`: deterministic in `(seed, i)`, valued in `[-1, 1] ∩ ℚ`. -/
def stdNormalQ (seed i : ℕ) : ℚ := ((lcgIter seed i % 2001 : ℕ) : ℚ) / 1000 - 1

/-- Model of `np.random.normal(drift, volatility, n_days)` (factors.py, line 206)
seeded with `seed`: `n` draws with mean `mu` and scale `sigma`. -/
def normalDraws (seed : ℕ) (mu sigma : ℚ) (n : ℕ) : List ℚ :=
  (List.range n).map (fun i => mu + sigma * stdNormalQ seed i)

/-- Helper for `np.cumsum`: running sums of a list seeded at `a`. -/
def cumsumAux (a : ℚ) : List ℚ → List ℚ
  | [] => []
  | x :: xs => (a + x) :: cumsumAux (a + x) xs

/-- Model of `np.cumsum` on a return list. -/
def cumsum (l : List ℚ) : List ℚ := cumsumAux 0 l

/-- The cumulative log-price path of `_generate_mock_data` before the final
`exp`: `cumsum` of the seeded normal draws with drift `0.0002` and
volatility `0.01`, one per business day.  Fully executable. -/
def mock_log_path (salt : ℕ) (s e : ℕ) (name : String) : List ℚ :=
  cumsum (normalDraws (mockSeed salt name) (2 / 10000) (1 / 100) (bdateRange s e).length)

/-- Model of `FactorDataLoader._generate_mock_data` (factors.py, lines 178-211):
business-day index over `[s, e]` with prices
`100 * exp(cumsum(normal(0.0002, 0.01)))`, seeded by
`np.random.seed(hash(name) % 2**32)`.  `g` is the ambient numpy global RNG
state; the call to `np.random.seed` overwrites it, so the result does not
depend on `g` — but it does depend on the process hash `salt`. -/
noncomputable def generate_mock_data (salt g : ℕ) (s e : ℕ) (name : String) :
    List (ℕ × ℝ) :=
  (bdateRange s e).zip
    ((mock_log_path salt s e name).map (fun q => (100 : ℝ) * Real.exp (q : ℝ)))

/-- The raw result of one `yf.download` that did not fail: the optional
`Adj Close` and `Close` columns as (ascending) date-indexed series.  A
failed / empty / exception-raising fetch is `none` at the call site. -/
structure FetchData : Type where
  adjClose : Option (List (ℕ × ℝ))
  close : Option (List (ℕ × ℝ))

/-- Model of `FactorDataLoader._load_currency_conversion` (factors.py, lines 80-97):
fetch the currency pair and invert its `Close` (`1 / close`); `none` when
the fetch failed or had no `Close` column (constant-rate fallback case). -/
noncomputable def load_currency_conversion
    (fetch : String → Option FetchData) (pair : String) : Option (List (ℕ × ℝ)) :=
  (fetch pair).bind (fun fd => fd.close.map (fun cs => cs.map (fun p => (p.1, 1 / p.2))))

/-- Forward-fill lookup: the last rate quoted on or before date `d`
(`reindex(..., method='ffill')` on an ascending rate index); `none` when no
rate exists yet at `d`. -/
def lastLE (rate : List (ℕ × ℝ)) (d : ℕ) : Option ℝ :=
  ((rate.filter (fun p => p.1 ≤ d)).getLast?).map (fun p => p.2)

/-- Model of `FactorDataLoader._convert_usd_to_eur` (factors.py, lines 99-116):
multiply by the forward-filled rate on the asset's own date index, or by the
constant `0.91` when no rate series was loaded.  A date before the first
quoted rate gets a `NaN` cell. -/
noncomputable def convert_usd_to_eur (rate : Option (List (ℕ × ℝ)))
    (prices : List (ℕ × ℝ)) : List (ℕ × Option ℝ) :=
  match rate with
  | some rs => prices.map (fun p => (p.1, (lastLE rs p.1).map (fun r => p.2 * r)))
  | none => prices.map (fun p => (p.1, some (p.2 * (91 / 100))))

/-- Insert a date into an ascending date list. -/
def insertAsc (d : ℕ) : List ℕ → List ℕ
  | [] => [d]
  | x :: xs => if d ≤ x then d :: x :: xs else x :: insertAsc d xs

/-- Sort a date list ascending (insertion sort). -/
def sortAsc (l : List ℕ) : List ℕ := l.foldr insertAsc []

/-- Value of a date-indexed series at date `d`: `none` when the series has
no such date or stores a missing value there. -/
def lookupDate (s : List (ℕ × Option ℝ)) (d : ℕ) : Option ℝ :=
  match s.find? (fun p => p.1 = d) with
  | some p => p.2
  | none => none

/-- Model of `pd.DataFrame(price_data)` (factors.py, line 173): outer-join all
per-ticker series on the sorted union of their date indexes. -/
def assemble (series : List (String × List (ℕ × Option ℝ))) : Frame ℝ :=
  { cols := series.map (fun s => s.1),
    rows := (sortAsc ((series.map (fun s => s.2.map (fun p => p.1))).flatten.dedup)).map
      (fun d => series.map (fun s => lookupDate s.2 d)) }

/-- pandas `dropna(how='all')` (factors.py, line 174): drop the rows in
which every cell is missing. -/
def dropna_all (rows : List (List (Option ℝ))) : List (List (Option ℝ)) :=
  rows.filter (fun r => r.any Option.isSome)

/-- Mock fallback as a date-indexed series with all values present. -/
noncomputable def mock_series (salt : ℕ) (s e : ℕ) (name : String) :
    List (ℕ × Option ℝ) :=
  (generate_mock_data salt 0 s e name).map (fun p => (p.1, some p.2))

/-- Price-column selection and conversion for one fetched ticker: prefer
`Adj Close`, else `Close`; convert tickers flagged as USD-denominated. -/
noncomputable def ticker_prices (rate : Option (List (ℕ × ℝ))) (usd : List String)
    (ticker : String) (prices : List (ℕ × ℝ)) : List (ℕ × Option ℝ) :=
  if ticker ∈ usd then convert_usd_to_eur rate prices
  else prices.map (fun p => (p.1, some p.2))

/-- Model of `FactorDataLoader.load_tickers` (factors.py, lines 118-176): per ticker,
fetch (any failure — no data, no price column, exception — falls back to
`_generate_mock_data`), select `Adj Close`/`Close`, convert USD tickers,
then assemble all series into one table and drop all-`NaN` rows; raise
`ValueError` exactly when the collected dict is empty. -/
noncomputable def load_tickers (salt : ℕ) (fetch : String → Option FetchData)
    (s e : ℕ) (pair : String) (usd : List String)
    (tickers : List (String × String)) : Except String (Frame ℝ) :=
  let rate := load_currency_conversion fetch pair
  let price_data := tickers.map (fun nt =>
    (nt.1,
      match fetch nt.2 with
      | none => mock_series salt s e nt.1
      | some fd =>
        match fd.adjClose with
        | some prices => ticker_prices rate usd nt.2 prices
        | none =>
          match fd.close with
          | some prices => ticker_prices rate usd nt.2 prices
          | none => mock_series salt s e nt.1))
  if price_data.isEmpty then Except.error "No ticker data was successfully loaded"
  else Except.ok { cols := (assemble price_data).cols,
                   rows := dropna_all (assemble price_data).rows }

/-! Section: Helper lemmas (ℚ side) -/

lemma cumprodAux_getLast? :
    ∀ (l : List ℚ) (a : ℚ), l ≠ [] → (cumprodAux a l).getLast? = some (a * l.prod)
  | [], _, h => absurd rfl h
  | [x], a, _ => by simp [cumprodAux]
  | x :: y :: ys, a, _ => by
    have ih := cumprodAux_getLast? (y :: ys) (a * x) (by simp)
    have h2 : cumprodAux (a * x) (y :: ys) =
        (a * x * y) :: cumprodAux (a * x * y) ys := rfl
    show ((a * x) :: cumprodAux (a * x) (y :: ys)).getLast? = _
    rw [h2, List.getLast?_cons_cons, ← h2, ih]
    simp [mul_assoc]

lemma getLast?_map (f : ℚ → ℚ) :
    ∀ l : List ℚ, (l.map f).getLast? = l.getLast?.map f
  | [] => by simp
  | [x] => by simp
  | x :: y :: ys => by
    have ih := getLast?_map f (y :: ys)
    show (f x :: (y :: ys).map f).getLast? = _
    rw [List.map_cons, List.getLast?_cons_cons, ← List.map_cons, ih,
      List.getLast?_cons_cons]

lemma expMaxAux_length (l : List ℚ) : ∀ m, (expMaxAux m l).length = l.length := by
  induction l with
  | nil => intro m; rfl
  | cons x xs ih => intro m; simp [expMaxAux, ih]

lemma expandingMax_length (l : List ℚ) : (expandingMax l).length = l.length := by
  cases l with
  | nil => rfl
  | cons x xs => simp [expandingMax, expMaxAux_length]

lemma getD_zipWith (f : ℚ → ℚ → ℚ) :
    ∀ (as bs : List ℚ) (i : ℕ), i < as.length → i < bs.length →
      (List.zipWith f as bs).getD i 0 = f (as.getD i 0) (bs.getD i 0) := by
  intro as
  induction as with
  | nil => intro bs i h _; exact absurd h (by simp)
  | cons a as ih =>
    intro bs i h1 h2
    cases bs with
    | nil => exact absurd h2 (by simp)
    | cons b bs =>
      cases i with
      | zero => rfl
      | succ j =>
        have := ih bs j (by simpa using h1) (by simpa using h2)
        simpa [List.zipWith] using this

lemma drawdown_aux (l : List ℚ) :
    ∀ m : ℚ, 0 < m → (∀ x ∈ l, 0 < x) →
      ∀ d ∈ List.zipWith (fun p q => (p - q) / q) l (expMaxAux m l), d ≤ 0 := by
  induction l with
  | nil => intro m _ _ d hd; simp [expMaxAux] at hd
  | cons x xs ih =>
    intro m hm hpos d hd
    have hx : 0 < x := hpos x (by simp)
    simp only [expMaxAux, List.zipWith] at hd
    rcases List.mem_cons.mp hd with h | h
    · subst h
      apply div_nonpos_of_nonpos_of_nonneg
      · simpa using le_max_right m x
      · exact le_of_lt (lt_max_of_lt_right hx)
    · exact ih (max m x) (lt_max_of_lt_right hx) (fun y hy => hpos y (by simp [hy])) d h

lemma getD_map_lt {α β : Type} (f : α → β) (d : α) (d' : β) :
    ∀ (l : List α) (i : ℕ), i < l.length →
      (l.map f).getD i d' = f (l.getD i d) := by
  intro l
  induction l with
  | nil => intro i h; exact absurd h (by simp)
  | cons a as ih =>
    intro i h
    cases i with
    | zero => rfl
    | succ j => exact ih j (by simpa using h)

lemma sum_map_div_mul (l : List ℚ) (T : ℚ) :
    (l.map (fun v => v / T * 100)).sum = l.sum / T * 100 := by
  induction l with
  | nil => simp
  | cons x xs ih => simp [ih]; ring

/-! Section: Theorems for C5, C6, C10 -/

/-- C5: for every non-empty return column of the table, the last row of
`calculate_cumulative_returns` equals the product over all observations of
`(1 + r)` minus 1. -/
theorem C5_cumulative_last (cols : List (List ℚ)) :
    ∀ col ∈ cols, col ≠ [] →
      (calculate_cumulative_returns col).getLast? =
        some ((col.map (fun r => 1 + r)).prod - 1) := by
  intro col _ hne
  have hmap : col.map (fun r => 1 + r) ≠ [] := by
    intro h; exact hne (List.map_eq_nil_iff.mp h)
  unfold calculate_cumulative_returns cumprod
  rw [getLast?_map, cumprodAux_getLast? _ 1 hmap]
  simp

/-- C5 witness: returns `[0.01, -0.02, 0.03]` give cumulative return
`1.01 * 0.98 * 1.03 - 1 = 0.019494`. -/
theorem C5_cumulative_last_witness :
    ((1/100 : ℚ) :: (-2/100) :: (3/100) :: []) ∈ ([[1/100, -2/100, 3/100]] : List (List ℚ)) ∧
    ((1/100 : ℚ) :: (-2/100) :: (3/100) :: []) ≠ [] ∧
    (calculate_cumulative_returns [1/100, -2/100, 3/100]).getLast? =
      some ((([1/100, -2/100, 3/100] : List ℚ).map (fun r => 1 + r)).prod - 1) :=
  ⟨by simp, by simp,
    C5_cumulative_last [[1/100, -2/100, 3/100]] _ (by simp) (by simp)⟩

/-- C6: for a price series with positive prices, every drawdown value is ≤ 0,
the drawdown is exactly 0 wherever the price equals its running maximum, and
the max drawdown is the minimum of the drawdown series. -/
theorem C6_drawdown_props (prices : List ℚ) (hpos : ∀ p ∈ prices, 0 < p) :
    (∀ d ∈ drawdown_col prices, d ≤ 0) ∧
    (∀ i, i < prices.length →
      prices.getD i 0 = (expandingMax prices).getD i 0 →
      (drawdown_col prices).getD i 0 = 0) ∧
    calculate_max_drawdown [prices] = [(drawdown_col prices).min?] := by
  refine ⟨?_, ?_, rfl⟩
  · intro d hd
    cases prices with
    | nil => simp [drawdown_col, expandingMax] at hd
    | cons x xs =>
      have hx : 0 < x := hpos x (by simp)
      simp only [drawdown_col, expandingMax, List.zipWith] at hd
      rcases List.mem_cons.mp hd with h | h
      · subst h; simp
      · exact drawdown_aux xs x hx (fun y hy => hpos y (by simp [hy])) d h
  · intro i hi hpeak
    have hlen : i < (expandingMax prices).length := by
      rw [expandingMax_length]; exact hi
    unfold drawdown_col
    rw [getD_zipWith _ prices (expandingMax prices) i hi hlen, hpeak]
    simp

/-- C6 witness: prices `[100, 110, 95, 120]` are positive, the properties
hold, and the max drawdown is `(95 - 110)/110 = -3/22 ≈ -0.1364`. -/
theorem C6_drawdown_props_witness :
    (∀ p ∈ ([100, 110, 95, 120] : List ℚ), 0 < p) ∧
    ((∀ d ∈ drawdown_col [100, 110, 95, 120], d ≤ 0) ∧
      (∀ i, i < ([100, 110, 95, 120] : List ℚ).length →
        ([100, 110, 95, 120] : List ℚ).getD i 0 =
          (expandingMax [100, 110, 95, 120]).getD i 0 →
        (drawdown_col [100, 110, 95, 120]).getD i 0 = 0) ∧
      calculate_max_drawdown [[100, 110, 95, 120]] =
        [(drawdown_col [100, 110, 95, 120]).min?]) ∧
    calculate_max_drawdown [[100, 110, 95, 120]] = [some (-3/22)] :=
  ⟨by norm_num, C6_drawdown_props [100, 110, 95, 120] (by norm_num),
    by
      norm_num [calculate_max_drawdown, calculate_drawdowns, drawdown_col,
        expandingMax, expMaxAux, List.zipWith, List.min?, List.foldl,
        max_def, min_def]⟩

/-- C10: if the final-row prices sum to a nonzero total, the regional
contribution percentages sum to exactly 100, and each equals the asset's
final price over the total, times 100. -/
theorem C10_contribution (cols : List (List ℚ))
    (hsum : (cols.map (fun c => c.getLastD 0)).sum ≠ 0) :
    (calculate_regional_contribution cols).sum = 100 ∧
    (∀ i, i < cols.length →
      (calculate_regional_contribution cols).getD i 0 =
        (cols.getD i []).getLastD 0 / (cols.map (fun c => c.getLastD 0)).sum * 100) := by
  constructor
  · unfold calculate_regional_contribution
    rw [sum_map_div_mul, div_self hsum, one_mul]
  · intro i hi
    unfold calculate_regional_contribution
    have h1 : i < (cols.map (fun c => c.getLastD 0)).length := by
      simpa using hi
    rw [getD_map_lt _ 0 0 _ i h1, getD_map_lt _ ([] : List ℚ) 0 cols i hi]

/-- C10 witness: final prices `[50, 150]` give contributions `[25, 75]`,
which sum to 100. -/
theorem C10_contribution_witness :
    ((([[50], [150]] : List (List ℚ)).map (fun c => c.getLastD 0)).sum ≠ 0) ∧
    ((calculate_regional_contribution [[50], [150]]).sum = 100 ∧
      (∀ i, i < ([[50], [150]] : List (List ℚ)).length →
        (calculate_regional_contribution [[50], [150]]).getD i 0 =
          (([[50], [150]] : List (List ℚ)).getD i []).getLastD 0 /
            (([[50], [150]] : List (List ℚ)).map (fun c => c.getLastD 0)).sum * 100)) :=
  ⟨by norm_num, C10_contribution [[50], [150]] (by norm_num)⟩

/-! Section: Lemmas and theorems for C1 (returns-derivation shape) -/

lemma pct_row_all_isSome :
    ∀ (a b : List (Option ℚ)),
      (∀ c ∈ a, ∃ p, c = some p ∧ 0 < p) → (∀ c ∈ b, Option.isSome c = true) →
      (pct_row a b).all Option.isSome = true := by
  intro a
  induction a with
  | nil => intro b _ _; cases b <;> simp [pct_row]
  | cons x xs ih =>
    intro b ha hb
    cases b with
    | nil => simp [pct_row]
    | cons y ys =>
      obtain ⟨p, hp, hppos⟩ := ha x (by simp)
      obtain ⟨cv, hcv⟩ := Option.isSome_iff_exists.mp (hb y (by simp))
      subst hp
      subst hcv
      have hcell : Option.isSome (pctCell (some p) (some cv)) = true := by
        have hred : pctCell (some p) (some cv) =
            if p = 0 ∧ cv = 0 then none else some ((cv - p) / p) := rfl
        rw [hred, if_neg (by rintro ⟨h0, _⟩; exact absurd h0 (ne_of_gt hppos))]
        rfl
      have htail := ih ys (fun c hc => ha c (by simp [hc])) (fun c hc => hb c (by simp [hc]))
      simp only [pct_row, List.zipWith, List.all_cons, Bool.and_eq_true]
      exact ⟨hcell, htail⟩

lemma zip_pct_keep :
    ∀ (rest : List (List (Option ℚ))) (r0 : List (Option ℚ)),
      (∀ c ∈ r0, ∃ p, c = some p ∧ 0 < p) →
      (∀ r ∈ rest, ∀ c ∈ r, ∃ p, c = some p ∧ 0 < p) →
      ∀ row ∈ List.zipWith pct_row (r0 :: rest) rest, row.all Option.isSome = true := by
  intro rest
  induction rest with
  | nil => intro r0 _ _ row hrow; simp at hrow
  | cons b bs ih =>
    intro r0 h0 hrest row hrow
    have hb : ∀ c ∈ b, ∃ p, c = some p ∧ 0 < p := hrest b (by simp)
    rcases List.mem_cons.mp hrow with h | h
    · subst h
      exact pct_row_all_isSome r0 b h0 (fun c hc => by
        obtain ⟨p, hp, _⟩ := hb c hc; rw [hp]; rfl)
    · exact ih b hb (fun r hr => hrest r (by simp [hr])) row h

/-- C1 (amended): for every price table with at least one row, at least one
column, well-formed rows, and all cells present with positive prices, the
table produced by `get_returns` has exactly one row fewer and exactly the
same columns. -/
theorem C1_returns_shape (P : Frame ℚ) (hrows : P.rows ≠ []) (hcols : P.cols ≠ [])
    (hw : ∀ r ∈ P.rows, r.length = P.cols.length)
    (hpos : ∀ r ∈ P.rows, ∀ c ∈ r, ∃ p, c = some p ∧ 0 < p) :
    (get_returns P).rows.length + 1 = P.rows.length ∧ (get_returns P).cols = P.cols := by
  refine ⟨?_, rfl⟩
  obtain ⟨r0, rest, hP⟩ : ∃ r0 rest, P.rows = r0 :: rest := by
    cases hp : P.rows with
    | nil => exact absurd hp hrows
    | cons a b => exact ⟨a, b, rfl⟩
  have hr0m : r0 ∈ P.rows := by rw [hP]; simp
  have hr0 : r0 ≠ [] := by
    intro h
    have hlen := hw r0 hr0m
    rw [h] at hlen
    exact hcols (List.length_eq_zero.mp hlen.symm)
  have hfirst : ((r0.map (fun _ => (none : Option ℚ))).all Option.isSome) = false := by
    cases r0 with
    | nil => exact absurd rfl hr0
    | cons x xs => simp
  have hkeep := zip_pct_keep rest r0 (hpos r0 hr0m)
    (fun r hr => hpos r (by rw [hP]; simp [hr]))
  show (dropna_any (pct_change P.rows)).length + 1 = P.rows.length
  rw [hP]
  show (dropna_any ((r0.map fun _ => none) :: List.zipWith pct_row (r0 :: rest) rest)).length + 1
    = rest.length + 1
  unfold dropna_any
  rw [List.filter_cons_of_neg (by rw [hfirst]; exact Bool.false_ne_true),
    List.filter_eq_self.mpr (fun row hrow => hkeep row hrow),
    List.length_zipWith]
  simp

/-- C1 counterexample: on a price table whose first row has a missing cell
(allowed by the spec's PriceTable invariant), `get_returns` drops two rows,
so the result does not have exactly one row fewer. -/
theorem C1_returns_shape_cex :
    (get_returns price_frame_gap).rows.length ≠ price_frame_gap.rows.length - 1 := by
  have h : get_returns price_frame_gap =
      { cols := ["A"], rows := [[some ((101 - 100) / 100)]] } := by
    unfold get_returns price_frame_gap pct_change pct_row pctCell dropna_any
    norm_num
  rw [h]
  simp [price_frame_gap]

/-- C1 witness: a 3-row, 1-column all-present positive price table satisfies
the amended hypotheses, and its return table has 2 rows and the same
columns. -/
theorem C1_returns_shape_witness :
    ((⟨["A"], [[some 100], [some 110], [some 95]]⟩ : Frame ℚ).rows ≠ []) ∧
    ((⟨["A"], [[some 100], [some 110], [some 95]]⟩ : Frame ℚ).cols ≠ []) ∧
    (∀ r ∈ (⟨["A"], [[some 100], [some 110], [some 95]]⟩ : Frame ℚ).rows,
      r.length = (⟨["A"], [[some 100], [some 110], [some 95]]⟩ : Frame ℚ).cols.length) ∧
    (∀ r ∈ (⟨["A"], [[some 100], [some 110], [some 95]]⟩ : Frame ℚ).rows,
      ∀ c ∈ r, ∃ p, c = some p ∧ 0 < p) ∧
    ((get_returns ⟨["A"], [[some 100], [some 110], [some 95]]⟩).rows.length + 1 =
        (⟨["A"], [[some 100], [some 110], [some 95]]⟩ : Frame ℚ).rows.length ∧
      (get_returns ⟨["A"], [[some 100], [some 110], [some 95]]⟩).cols =
        (⟨["A"], [[some 100], [some 110], [some 95]]⟩ : Frame ℚ).cols) := by
  have hposw : ∀ r ∈ (⟨["A"], [[some 100], [some 110], [some 95]]⟩ : Frame ℚ).rows,
      ∀ c ∈ r, ∃ p, c = some p ∧ 0 < p := by
    intro r hr c hc
    simp only [List.mem_cons, List.not_mem_nil, or_false] at hr
    rcases hr with rfl | rfl | rfl <;>
    · simp only [List.mem_cons, List.not_mem_nil, or_false] at hc
      subst hc
      exact ⟨_, rfl, by norm_num⟩
  exact ⟨by simp, by simp, by simp, hposw,
    C1_returns_shape _ (by simp) (by simp) (by simp) hposw⟩

/-! Section: Theorem for C8 (loader never aborts; raises iff nothing assembled) -/

/-- C8: for every tickers dict (distinct display names, as Python dict keys
are) and every fetch behaviour, `load_tickers` raises the DataUnavailable
`ValueError` if and only if the tickers dict is empty (every per-ticker
failure falls back to synthetic data, so the collected dict is empty exactly
when the input is); otherwise it returns the assembled table whose columns
are exactly the requested display names, with every all-missing row
dropped. -/
theorem C8_load_tickers (salt : ℕ) (fetch : String → Option FetchData) (s e : ℕ)
    (pair : String) (usd : List String) (tickers : List (String × String))
    (hnd : (tickers.map (fun t => t.1)).Nodup) :
    (load_tickers salt fetch s e pair usd tickers =
        Except.error "No ticker data was successfully loaded" ↔ tickers = []) ∧
    (∀ F, load_tickers salt fetch s e pair usd tickers = Except.ok F →
      F.cols = tickers.map (fun t => t.1) ∧
      ∀ r ∈ F.rows, r.any Option.isSome = true) := by
  cases tickers with
  | nil =>
    constructor
    · simp [load_tickers]
    · intro F hF
      simp [load_tickers] at hF
  | cons t ts =>
    have hload : ∃ G, load_tickers salt fetch s e pair usd (t :: ts) = Except.ok G ∧
        G.cols = ((t :: ts).map (fun nt =>
          (nt.1, match fetch nt.2 with
            | none => mock_series salt s e nt.1
            | some fd =>
              match fd.adjClose with
              | some prices => ticker_prices (load_currency_conversion fetch pair) usd nt.2 prices
              | none =>
                match fd.close with
                | some prices => ticker_prices (load_currency_conversion fetch pair) usd nt.2 prices
                | none => mock_series salt s e nt.1))).map (fun sr => sr.1) ∧
        G.rows = dropna_all ((assemble ((t :: ts).map (fun nt =>
          (nt.1, match fetch nt.2 with
            | none => mock_series salt s e nt.1
            | some fd =>
              match fd.adjClose with
              | some prices => ticker_prices (load_currency_conversion fetch pair) usd nt.2 prices
              | none =>
                match fd.close with
                | some prices => ticker_prices (load_currency_conversion fetch pair) usd nt.2 prices
                | none => mock_series salt s e nt.1)))).rows) :=
      ⟨_, rfl, rfl, rfl⟩
    obtain ⟨G, hG, hGcols, hGrows⟩ := hload
    constructor
    · rw [hG]
      constructor
      · intro h; exact absurd h (by simp)
      · intro h; exact absurd h (by simp)
    · intro F hF
      rw [hG] at hF
      have hFG : G = F := by
        cases hF; rfl
      subst hFG
      constructor
      · rw [hGcols, List.map_map]
        rfl
      · intro r hr
        rw [hGrows] at hr
        unfold dropna_all at hr
        exact (List.mem_filter.mp hr).2

/-- C8 witness: a one-ticker dict whose fetch always fails still loads (via
the mock fallback), with the single requested column. -/
theorem C8_load_tickers_witness :
    ((([("A", "SPY")] : List (String × String)).map (fun t => t.1)).Nodup) ∧
    ((load_tickers 0 (fun _ => none) 0 4 "EURUSD=X" [] [("A", "SPY")] =
        Except.error "No ticker data was successfully loaded" ↔
          ([("A", "SPY")] : List (String × String)) = []) ∧
      (∀ F, load_tickers 0 (fun _ => none) 0 4 "EURUSD=X" [] [("A", "SPY")] = Except.ok F →
        F.cols = ([("A", "SPY")] : List (String × String)).map (fun t => t.1) ∧
        ∀ r ∈ F.rows, r.any Option.isSome = true)) :=
  ⟨by simp, C8_load_tickers 0 (fun _ => none) 0 4 "EURUSD=X" [] [("A", "SPY")] (by simp)⟩

/-! Section: Lemmas and theorems for C2 (synthetic-data reproducibility) -/

lemma generate_mock_data_state_independent (salt g1 g2 s e : ℕ) (name : String) :
    generate_mock_data salt g1 s e name = generate_mock_data salt g2 s e name := rfl

/-- C2: synthetic generation is *not* reproducible across separate
interpreter runs: `np.random.seed(hash(name) % 2**32)` keys the seed on
CPython's salted string hash, which differs between processes
(`PYTHONHASHSEED`), so two runs with different hash salts produce different
price paths for the same asset name and the same date range — here
name `"Value"` on a one-business-day range.  (Within a fixed process the
path is deterministic: `generate_mock_data_state_independent`.) -/
theorem C2_mock_differs_across_salts :
    generate_mock_data 0 0 0 0 "Value" ≠ generate_mock_data 1 0 0 0 "Value" := by
  have hd : bdateRange 0 0 = [0] := by decide
  have hlen1 : (mock_log_path 0 0 0 "Value").length = 1 := rfl
  have hlen2 : (mock_log_path 1 0 0 "Value").length = 1 := rfl
  obtain ⟨a, ha⟩ := List.length_eq_one.mp hlen1
  obtain ⟨b, hb⟩ := List.length_eq_one.mp hlen2
  have hav : a = 0 + (2 / 10000 + 1 / 100 * stdNormalQ (mockSeed 0 "Value") 0) := by
    have heq : mock_log_path 0 0 0 "Value" =
        [0 + (2 / 10000 + 1 / 100 * stdNormalQ (mockSeed 0 "Value") 0)] := rfl
    rw [ha] at heq
    simpa using heq
  have hbv : b = 0 + (2 / 10000 + 1 / 100 * stdNormalQ (mockSeed 1 "Value") 0) := by
    have heq : mock_log_path 1 0 0 "Value" =
        [0 + (2 / 10000 + 1 / 100 * stdNormalQ (mockSeed 1 "Value") 0)] := rfl
    rw [hb] at heq
    simpa using heq
  have hk : lcgIter (mockSeed 0 "Value") 0 % 2001 ≠ lcgIter (mockSeed 1 "Value") 0 % 2001 := by
    decide
  have hab : a ≠ b := by
    rw [hav, hbv]
    intro h
    have e1 : stdNormalQ (mockSeed 0 "Value") 0 =
        ((lcgIter (mockSeed 0 "Value") 0 % 2001 : ℕ) : ℚ) / 1000 - 1 := rfl
    have e2 : stdNormalQ (mockSeed 1 "Value") 0 =
        ((lcgIter (mockSeed 1 "Value") 0 % 2001 : ℕ) : ℚ) / 1000 - 1 := rfl
    rw [e1, e2] at h
    have h' : ((lcgIter (mockSeed 0 "Value") 0 % 2001 : ℕ) : ℚ) =
        ((lcgIter (mockSeed 1 "Value") 0 % 2001 : ℕ) : ℚ) := by linarith
    exact hk (Nat.cast_injective h')
  intro h
  apply hab
  have hg1 : generate_mock_data 0 0 0 0 "Value" =
      [(0, (100 : ℝ) * Real.exp ((a : ℚ) : ℝ))] := by
    unfold generate_mock_data
    rw [hd, ha]
    rfl
  have hg2 : generate_mock_data 1 0 0 0 "Value" =
      [(0, (100 : ℝ) * Real.exp ((b : ℚ) : ℝ))] := by
    unfold generate_mock_data
    rw [hd, hb]
    rfl
  rw [hg1, hg2] at h
  simp only [List.cons.injEq, Prod.mk.injEq, and_true, true_and] at h
  have h100 := mul_left_cancel₀ (by norm_num : (100 : ℝ) ≠ 0) h
  have hexp := Real.exp_eq_exp.mp h100
  exact_mod_cast hexp

/-! Section: Lemmas and theorems for C3 (Sharpe ratio at zero volatility) -/

lemma list_sum_const (l : List ℝ) (c : ℝ) (h : ∀ x ∈ l, x = c) :
    l.sum = l.length * c := by
  induction l with
  | nil => simp
  | cons x xs ih =>
    have hx := h x (by simp)
    have hxs := ih (fun y hy => h y (by simp [hy]))
    subst hx
    simp [hxs]
    ring

lemma mean_const (l : List ℝ) (c : ℝ) (hne : l ≠ []) (h : ∀ x ∈ l, x = c) :
    mean l = c := by
  unfold mean
  rw [list_sum_const l c h]
  have hlen : (l.length : ℝ) ≠ 0 :=
    Nat.cast_ne_zero.mpr (List.length_pos.mpr hne).ne'
  rw [mul_comm, mul_div_assoc, div_self hlen, mul_one]

lemma sample_var_const (l : List ℝ) (c : ℝ) (h : ∀ x ∈ l, x = c) :
    sample_var l = 0 := by
  by_cases hne : l = []
  · subst hne; simp [sample_var]
  · have hmean := mean_const l c hne h
    unfold sample_var
    have hz : ∀ i ∈ Finset.range l.length, (l.getD i 0 - mean l) ^ 2 = 0 := by
      intro i hi
      have hi' : i < l.length := Finset.mem_range.mp hi
      rw [List.getD_eq_getElem l 0 hi', h _ (List.getElem_mem hi'), hmean]
      simp
    rw [Finset.sum_congr rfl hz]
    simp

/-- C3 (amended): for every all-constant return column with at least two
observations (the case in which pandas' sample standard deviation is the
number `0.0`; with fewer observations it is `NaN`), the annualized
volatility is exactly zero and `calculate_sharpe` yields a non-finite
sentinel (`NaN` or `±inf`), never a finite ratio — and, being a total
function on the model, no exception. -/
theorem C3_sharpe_zero_vol (l : List ℝ) (c : ℝ) (rfr : ℝ) (td : ℕ)
    (hlen : 2 ≤ l.length) (hconst : ∀ x ∈ l, x = c) :
    calculate_annualized_volatility td l = 0 ∧
    ∀ x : ℝ, calculate_sharpe rfr td l ≠ PyVal.fin x := by
  have hvol : calculate_annualized_volatility td l = 0 := by
    unfold calculate_annualized_volatility sample_std
    rw [sample_var_const l c hconst, Real.sqrt_zero, zero_mul]
  refine ⟨hvol, ?_⟩
  intro x
  unfold calculate_sharpe
  rw [hvol]
  unfold floatDiv
  rw [if_pos rfl]
  split_ifs <;> simp

/-- C3 witness: the constant return column `[0.1, 0.1]` satisfies the
hypotheses, and its Sharpe ratio is non-finite. -/
theorem C3_sharpe_zero_vol_witness :
    2 ≤ ([1, 1] : List ℝ).length ∧
    (∀ x ∈ ([1, 1] : List ℝ), x = 1) ∧
    (calculate_annualized_volatility 252 [1, 1] = 0 ∧
      ∀ x : ℝ, calculate_sharpe (2/100) 252 [1, 1] ≠ PyVal.fin x) :=
  ⟨by norm_num, by intro x hx; simp at hx; tauto,
    C3_sharpe_zero_vol [1, 1] 1 (2/100) 252 (by norm_num)
      (by intro x hx; simp at hx; tauto)⟩

/-- C3 counterexample: on the all-zero return column `[0, 0, 0]` (zero
annualized volatility), `calculate_sharpe` returns `-inf` — a non-finite
sentinel, but *not* the not-a-number sentinel the claim asserts:
`(0 - 0.02) / 0.0` is `-inf` under numpy float semantics. -/
theorem C3_sharpe_zero_vol_cex :
    calculate_sharpe (2/100) 252 [0, 0, 0] = PyVal.ninf ∧ PyVal.ninf ≠ PyVal.nan := by
  constructor
  · have hvar : sample_var [(0 : ℝ), 0, 0] = 0 :=
      sample_var_const _ 0 (by intro x hx; simp at hx; tauto)
    have hvol : calculate_annualized_volatility 252 [(0 : ℝ), 0, 0] = 0 := by
      unfold calculate_annualized_volatility sample_std
      rw [hvar, Real.sqrt_zero, zero_mul]
    have hann : calculate_annualized_return 252 [(0 : ℝ), 0, 0] = 0 := by
      unfold calculate_annualized_return total_return
      norm_num [Real.one_rpow]
    unfold calculate_sharpe
    rw [hann, hvol]
    unfold floatDiv
    rw [if_pos rfl, if_neg (by norm_num), if_neg (by norm_num)]
  · simp

/-! Section: Theorem for C4 (rolling metrics fail fast on unknown metric) -/

/-- C4: `get_rolling_metrics` raises the `InvalidMetric` `ValueError` if and
only if the metric name is outside `{volatility, return, sharpe}`; on those
three it returns a rolling table without raising.  (`1 ≤ window` keeps the
statement inside the domain where pandas' own `rolling` constructor — code
outside this repository — does not itself reject the window.) -/
theorem C4_rolling_metric (cols : List (List ℝ)) (window : ℕ) (metric : String)
    (hwin : 1 ≤ window) :
    ((∃ msg, get_rolling_metrics cols window metric = Except.error msg) ↔
      metric ∉ (["volatility", "return", "sharpe"] : List String)) ∧
    (metric ∉ (["volatility", "return", "sharpe"] : List String) →
      get_rolling_metrics cols window metric =
        Except.error ("Unknown metric: " ++ metric)) := by
  by_cases h1 : metric = "volatility"
  · subst h1
    constructor
    · constructor
      · rintro ⟨msg, hmsg⟩
        unfold get_rolling_metrics at hmsg
        rw [if_pos rfl] at hmsg
        exact Except.noConfusion hmsg
      · intro hmem
        exact absurd (by simp) hmem
    · intro hmem
      exact absurd (by simp) hmem
  · by_cases h2 : metric = "return"
    · subst h2
      constructor
      · constructor
        · rintro ⟨msg, hmsg⟩
          unfold get_rolling_metrics at hmsg
          rw [if_neg (by intro h; exact absurd h (by simp)), if_pos rfl] at hmsg
          exact Except.noConfusion hmsg
        · intro hmem
          exact absurd (by simp) hmem
      · intro hmem
        exact absurd (by simp) hmem
    · by_cases h3 : metric = "sharpe"
      · subst h3
        constructor
        · constructor
          · rintro ⟨msg, hmsg⟩
            unfold get_rolling_metrics at hmsg
            rw [if_neg (by intro h; exact absurd h (by simp)),
              if_neg (by intro h; exact absurd h (by simp)), if_pos rfl] at hmsg
            exact Except.noConfusion hmsg
          · intro hmem
            exact absurd (by simp) hmem
        · intro hmem
          exact absurd (by simp) hmem
      · have herr : get_rolling_metrics cols window metric =
            Except.error ("Unknown metric: " ++ metric) := by
          unfold get_rolling_metrics
          rw [if_neg h1, if_neg h2, if_neg h3]
        constructor
        · constructor
          · intro _
            simp [h1, h2, h3]
          · intro _
            exact ⟨_, herr⟩
        · intro _
          exact herr

/-- C4 witness: `metric = "unknown"` with the default window raises the
`InvalidMetric` error. -/
theorem C4_rolling_metric_witness :
    1 ≤ 252 ∧
    (((∃ msg, get_rolling_metrics [[(1 : ℝ)]] 252 "unknown" = Except.error msg) ↔
        "unknown" ∉ (["volatility", "return", "sharpe"] : List String)) ∧
      ("unknown" ∉ (["volatility", "return", "sharpe"] : List String) →
        get_rolling_metrics [[(1 : ℝ)]] 252 "unknown" =
          Except.error ("Unknown metric: " ++ "unknown"))) :=
  ⟨by norm_num, C4_rolling_metric [[(1 : ℝ)]] 252 "unknown" (by norm_num)⟩

/-! Section: Lemmas and theorems for C7 (correlation matrix) -/

lemma sample_var_of_short (l : List ℝ) (h : l.length ≤ 1) : sample_var l = 0 := by
  cases l with
  | nil => simp [sample_var]
  | cons x xs =>
    cases xs with
    | nil =>
      unfold sample_var mean
      norm_num [Finset.sum_range_one]
    | cons y ys =>
      simp only [List.length_cons] at h
      omega

lemma sample_var_nonneg (l : List ℝ) : 0 ≤ sample_var l := by
  by_cases h : l.length ≤ 1
  · rw [sample_var_of_short l h]
  · push_neg at h
    unfold sample_var
    apply div_nonneg
    · exact Finset.sum_nonneg (fun i _ => sq_nonneg _)
    · have h2 : (2 : ℝ) ≤ (l.length : ℝ) := by exact_mod_cast h
      linarith

lemma sample_cov_self (l : List ℝ) : sample_cov l l = sample_var l := by
  unfold sample_cov sample_var
  congr 1
  exact Finset.sum_congr rfl (fun i _ => by ring)

lemma sample_cov_comm (x y : List ℝ) (h : x.length = y.length) :
    sample_cov x y = sample_cov y x := by
  unfold sample_cov
  rw [h]
  congr 1
  exact Finset.sum_congr rfl (fun i _ => by ring)

lemma div_sq_le_of_sq_le (S Sx Sy d : ℝ) (hcs : S ^ 2 ≤ Sx * Sy) :
    (S / d) ^ 2 ≤ (Sx / d) * (Sy / d) := by
  by_cases hd : d = 0
  · subst hd; simp
  · have hd2 : (0 : ℝ) < d ^ 2 := by positivity
    calc (S / d) ^ 2 = S ^ 2 / d ^ 2 := by rw [div_pow]
      _ ≤ (Sx * Sy) / d ^ 2 := (div_le_div_right hd2).mpr hcs
      _ = (Sx / d) * (Sy / d) := by rw [div_mul_div_comm, ← pow_two]

lemma sample_cov_sq_le (x y : List ℝ) (h : x.length = y.length) :
    (sample_cov x y) ^ 2 ≤ sample_var x * sample_var y := by
  unfold sample_cov sample_var
  rw [← h]
  exact div_sq_le_of_sq_le _ _ _ _
    (Finset.sum_mul_sq_le_sq_mul_sq (Finset.range x.length)
      (fun i => x.getD i 0 - mean x) (fun i => y.getD i 0 - mean y))

lemma corr_entry_diag (x : List ℝ) (hv : sample_var x ≠ 0) :
    corr_entry x x = PyVal.fin 1 := by
  unfold corr_entry sample_std
  rw [sample_cov_self, Real.mul_self_sqrt (sample_var_nonneg x)]
  unfold floatDiv
  rw [if_neg hv, div_self hv]

lemma corr_entry_bound (x y : List ℝ) (hlen : x.length = y.length)
    (hvx : sample_var x ≠ 0) (hvy : sample_var y ≠ 0) :
    ∃ r, corr_entry x y = PyVal.fin r ∧ -1 ≤ r ∧ r ≤ 1 := by
  have hpx : 0 < sample_var x := lt_of_le_of_ne (sample_var_nonneg x) (Ne.symm hvx)
  have hpy : 0 < sample_var y := lt_of_le_of_ne (sample_var_nonneg y) (Ne.symm hvy)
  have hsx : 0 < sample_std x := Real.sqrt_pos.mpr hpx
  have hsy : 0 < sample_std y := Real.sqrt_pos.mpr hpy
  have hdenom : 0 < sample_std x * sample_std y := mul_pos hsx hsy
  have habs : |sample_cov x y| ≤ sample_std x * sample_std y := by
    have h1 : |sample_cov x y| = Real.sqrt ((sample_cov x y) ^ 2) :=
      (Real.sqrt_sq_eq_abs _).symm
    rw [h1]
    calc Real.sqrt ((sample_cov x y) ^ 2)
        ≤ Real.sqrt (sample_var x * sample_var y) :=
          Real.sqrt_le_sqrt (sample_cov_sq_le x y hlen)
      _ = Real.sqrt (sample_var x) * Real.sqrt (sample_var y) :=
          Real.sqrt_mul (le_of_lt hpx) _
      _ = sample_std x * sample_std y := rfl
  refine ⟨sample_cov x y / (sample_std x * sample_std y), ?_, ?_, ?_⟩
  · unfold corr_entry floatDiv
    rw [if_neg (ne_of_gt hdenom)]
  · rw [le_div_iff hdenom]
    linarith [(abs_le.mp habs).1]
  · rw [div_le_one hdenom]
    exact (abs_le.mp habs).2

lemma corr_matrix_entry (cols : List (List ℝ)) (i j : ℕ)
    (hi : i < cols.length) (hj : j < cols.length) :
    ((calculate_correlation_matrix cols).getD i []).getD j PyVal.nan =
      corr_entry (cols.getD i []) (cols.getD j []) := by
  unfold calculate_correlation_matrix
  rw [getD_map_lt (fun x => cols.map (fun y => corr_entry x y)) [] [] cols i hi,
    getD_map_lt (fun y => corr_entry (cols.getD i []) y) [] PyVal.nan cols j hj]

/-- C7 (amended): for every return table whose columns all have the same
length and nonzero sample variance, the correlation matrix is symmetric,
every diagonal entry is exactly `1.0`, and every entry is a finite value in
`[-1, 1]`. -/
theorem C7_correlation (cols : List (List ℝ)) (n : ℕ)
    (hw : ∀ c ∈ cols, c.length = n)
    (hv : ∀ c ∈ cols, sample_var c ≠ 0) :
    (∀ i j, i < cols.length → j < cols.length →
      ((calculate_correlation_matrix cols).getD i []).getD j PyVal.nan =
        ((calculate_correlation_matrix cols).getD j []).getD i PyVal.nan) ∧
    (∀ i, i < cols.length →
      ((calculate_correlation_matrix cols).getD i []).getD i PyVal.nan = PyVal.fin 1) ∧
    (∀ i j, i < cols.length → j < cols.length →
      ∃ r, ((calculate_correlation_matrix cols).getD i []).getD j PyVal.nan = PyVal.fin r ∧
        -1 ≤ r ∧ r ≤ 1) := by
  have hmem : ∀ i, i < cols.length → cols.getD i [] ∈ cols := by
    intro i hi
    rw [List.getD_eq_getElem cols [] hi]
    exact List.getElem_mem hi
  refine ⟨?_, ?_, ?_⟩
  · intro i j hi hj
    rw [corr_matrix_entry cols i j hi hj, corr_matrix_entry cols j i hj hi]
    unfold corr_entry
    rw [sample_cov_comm _ _ (by rw [hw _ (hmem i hi), hw _ (hmem j hj)]),
      mul_comm (sample_std (cols.getD i [])) (sample_std (cols.getD j []))]
  · intro i hi
    rw [corr_matrix_entry cols i i hi hi]
    exact corr_entry_diag _ (hv _ (hmem i hi))
  · intro i j hi hj
    rw [corr_matrix_entry cols i j hi hj]
    exact corr_entry_bound _ _ (by rw [hw _ (hmem i hi), hw _ (hmem j hj)])
      (hv _ (hmem i hi)) (hv _ (hmem j hj))

lemma sample_var_example : sample_var [(0 : ℝ), 1/5] = 1/50 := by
  unfold sample_var mean
  norm_num [Finset.sum_range_succ, List.getD_cons_zero, List.getD_cons_succ]

/-- C7 witness: the two-column table with columns `[0, 0.2]` (equal lengths,
nonzero variance) satisfies the amended hypotheses. -/
theorem C7_correlation_witness :
    (∀ c ∈ ([[0, 1/5], [0, 1/5]] : List (List ℝ)), c.length = 2) ∧
    (∀ c ∈ ([[0, 1/5], [0, 1/5]] : List (List ℝ)), sample_var c ≠ 0) ∧
    ((∀ i j, i < ([[0, 1/5], [0, 1/5]] : List (List ℝ)).length →
        j < ([[0, 1/5], [0, 1/5]] : List (List ℝ)).length →
      ((calculate_correlation_matrix [[0, 1/5], [0, 1/5]]).getD i []).getD j PyVal.nan =
        ((calculate_correlation_matrix [[0, 1/5], [0, 1/5]]).getD j []).getD i PyVal.nan) ∧
    (∀ i, i < ([[0, 1/5], [0, 1/5]] : List (List ℝ)).length →
      ((calculate_correlation_matrix [[0, 1/5], [0, 1/5]]).getD i []).getD i PyVal.nan =
        PyVal.fin 1) ∧
    (∀ i j, i < ([[0, 1/5], [0, 1/5]] : List (List ℝ)).length →
        j < ([[0, 1/5], [0, 1/5]] : List (List ℝ)).length →
      ∃ r, ((calculate_correlation_matrix [[0, 1/5], [0, 1/5]]).getD i []).getD j PyVal.nan =
        PyVal.fin r ∧ -1 ≤ r ∧ r ≤ 1)) := by
  have hvar : ∀ c ∈ ([[0, 1/5], [0, 1/5]] : List (List ℝ)), sample_var c ≠ 0 := by
    intro c hc
    simp only [List.mem_cons, List.not_mem_nil, or_false] at hc
    rcases hc with rfl | rfl <;> rw [sample_var_example] <;> norm_num
  have hlen : ∀ c ∈ ([[0, 1/5], [0, 1/5]] : List (List ℝ)), c.length = 2 := by
    intro c hc
    simp only [List.mem_cons, List.not_mem_nil, or_false] at hc
    rcases hc with rfl | rfl <;> rfl
  exact ⟨hlen, hvar, C7_correlation [[0, 1/5], [0, 1/5]] 2 hlen hvar⟩

/-- C7 counterexample: on the single constant return column `[0, 0]` the
diagonal entry of the correlation matrix is `NaN` (pandas `corr` is `0/0`
there), not `1.0`, so the claim fails for tables with a zero-variance
column. -/
theorem C7_correlation_cex :
    ((calculate_correlation_matrix [[0, 0]]).getD 0 []).getD 0 PyVal.nan = PyVal.nan ∧
    PyVal.nan ≠ PyVal.fin 1 := by
  constructor
  · rw [corr_matrix_entry [[0, 0]] 0 0 (by simp) (by simp)]
    have hvar : sample_var [(0 : ℝ), 0] = 0 :=
      sample_var_const _ 0 (by intro x hx; simp at hx; tauto)
    simp only [List.getD_cons_zero]
    unfold corr_entry sample_std
    rw [sample_cov_self, hvar, Real.sqrt_zero, mul_zero]
    unfold floatDiv
    rw [if_pos rfl, if_pos rfl]
  · simp

/-! Section: Lemmas and theorem for C9 (diversification-ratio refinement) -/

lemma sum_map_mul_right_list (l : List (List ℝ)) (f : List ℝ → ℝ) (r : ℝ) :
    (l.map (fun c => f c * r)).sum = (l.map f).sum * r := by
  induction l with
  | nil => simp
  | cons x xs ih =>
    simp [ih]
    ring

/-- C9: for a return table with at least two rows and nonzero (daily)
portfolio volatility, the source's diversification ratio — computed from
unannualized daily standard deviations — equals the spec's formula with
annualized volatilities: the `sqrt 252` factor cancels. -/
theorem C9_diversification_refines (cols : List (List ℝ)) (n : ℕ)
    (hn : 2 ≤ n)
    (hvol : sample_std (portfolio_returns cols n) ≠ 0) :
    calculate_diversification cols n = diversification_spec cols n := by
  have hs : Real.sqrt 252 ≠ 0 := by
    rw [Real.sqrt_ne_zero']
    norm_num
  unfold calculate_diversification diversification_spec
  have hnum : (cols.map (fun c => (1 / (cols.length : ℝ)) * (sample_std c * Real.sqrt 252))).sum =
      (cols.map (fun c => (1 / (cols.length : ℝ)) * sample_std c)).sum * Real.sqrt 252 := by
    rw [← sum_map_mul_right_list cols (fun c => (1 / (cols.length : ℝ)) * sample_std c)
      (Real.sqrt 252)]
    congr 1
    exact List.map_congr_left (fun c _ => by ring)
  rw [hnum]
  field_simp
  ring

/-- C9 witness: the one-column table `[[0, 0.2]]` with 2 rows has nonzero
portfolio volatility, and the two formulas agree on it. -/
theorem C9_diversification_refines_witness :
    2 ≤ 2 ∧
    sample_std (portfolio_returns [[(0 : ℝ), 1/5]] 2) ≠ 0 ∧
    calculate_diversification [[(0 : ℝ), 1/5]] 2 = diversification_spec [[(0 : ℝ), 1/5]] 2 := by
  have hrange : List.range 2 = [0, 1] := by decide
  have hp : portfolio_returns [[(0 : ℝ), 1/5]] 2 = [0, 1/5] := by
    unfold portfolio_returns
    rw [hrange]
    norm_num [List.getD_cons_zero, List.getD_cons_succ]
  have hvol : sample_std (portfolio_returns [[(0 : ℝ), 1/5]] 2) ≠ 0 := by
    rw [hp]
    unfold sample_std
    rw [sample_var_example]
    rw [Real.sqrt_ne_zero']
    norm_num
  exact ⟨by norm_num, hvol, C9_diversification_refines [[(0 : ℝ), 1/5]] 2 (by norm_num) hvol⟩
